import Mathlib

/-
Shallow embedding of the sdl2_tutorials repository's pure routines, and
proofs about them.

Conventions: C `int` values are modelled as `Int` (the claims under
consideration assume no overflow, and every quantity involved stays far
below 2^31); SDL tick counts (`Uint32`) are modelled as `Nat` together
with the wrap-around subtraction `sub32`.
-/

namespace Sdl2Tutorials

/-! ## 29_circular_collision_detection.c -/

/-- `Circle` from 29_circular_collision_detection.c: centre (x, y), radius r. -/
structure Circle where
  x : Int
  y : Int
  r : Int
deriving DecidableEq

/-- `SDL_Rect`: top-left corner (x, y), width w, height h. -/
structure SDLRect where
  x : Int
  y : Int
  w : Int
  h : Int
deriving DecidableEq

/-- `distanceSquared` from 29_circular_collision_detection.c.  The C
function returns `double`, but both operands of the final addition are
`int` products; for inputs small enough not to overflow an `int` the
value is an exactly representable integer, so `Int` is faithful. -/
def distanceSquared (x1 y1 x2 y2 : Int) : Int :=
  let deltaX := x2 - x1
  let deltaY := y2 - y1
  deltaX * deltaX + deltaY * deltaY

/-- `check_collision_circ` from 29_circular_collision_detection.c. -/
def check_collision_circ (a b : Circle) : Int :=
  let totalRadiusSquared := a.r + b.r
  let totalRadiusSquared := totalRadiusSquared * totalRadiusSquared
  if distanceSquared a.x a.y b.x b.y < totalRadiusSquared then -1 else 0

/-- `check_collision_rect` from 29_circular_collision_detection.c. -/
def check_collision_rect (a : Circle) (b : SDLRect) : Int :=
  let cX : Int :=
    if a.x < b.x then b.x
    else if a.x > b.x + b.w then b.x + b.w
    else a.x
  let cY : Int :=
    if a.y < b.y then b.y
    else if a.y > b.y + b.h then b.y + b.h
    else a.y
  if distanceSquared a.x a.y cX cY < a.r * a.r then -1 else 0

/-- Componentwise clamping, following the spec wording "the center's
coordinates clamped componentwise to the rectangle". -/
def clampTo (v lo hi : Int) : Int := max lo (min v hi)

lemma check_collision_rect_clamp (a : Circle) (b : SDLRect)
    (hw : 0 ≤ b.w) (hh : 0 ≤ b.h) :
    check_collision_rect a b =
      (if distanceSquared a.x a.y (clampTo a.x b.x (b.x + b.w))
            (clampTo a.y b.y (b.y + b.h)) < a.r * a.r then -1 else 0) := by
  unfold check_collision_rect clampTo
  have hx : (if a.x < b.x then b.x
      else if a.x > b.x + b.w then b.x + b.w else a.x)
      = max b.x (min a.x (b.x + b.w)) := by
    rcases lt_or_ge a.x b.x with h1 | h1
    · simp only [if_pos h1]
      omega
    · rcases lt_or_ge (b.x + b.w) a.x with h2 | h2
      · simp only [if_neg (not_lt.mpr h1), if_pos h2]
        omega
      · simp only [if_neg (not_lt.mpr h1), if_neg (not_lt.mpr h2)]
        omega
  have hy : (if a.y < b.y then b.y
      else if a.y > b.y + b.h then b.y + b.h else a.y)
      = max b.y (min a.y (b.y + b.h)) := by
    rcases lt_or_ge a.y b.y with h1 | h1
    · simp only [if_pos h1]
      omega
    · rcases lt_or_ge (b.y + b.h) a.y with h2 | h2
      · simp only [if_neg (not_lt.mpr h1), if_pos h2]
        omega
      · simp only [if_neg (not_lt.mpr h1), if_neg (not_lt.mpr h2)]
        omega
  rw [hx, hy]

/-- Clamping a coordinate to a nonempty closed interval minimises the
squared one-dimensional distance to every point of the interval. -/
lemma clamp_sq_le (v lo hi p : Int) (hlo : lo ≤ p) (hhi : p ≤ hi) :
    (v - clampTo v lo hi) * (v - clampTo v lo hi) ≤ (v - p) * (v - p) := by
  unfold clampTo
  rcases lt_or_ge v lo with h1 | h1
  · have : max lo (min v hi) = lo := by omega
    rw [this]
    nlinarith
  · rcases lt_or_ge hi v with h2 | h2
    · have : max lo (min v hi) = hi := by omega
      rw [this]
      nlinarith
    · have : max lo (min v hi) = v := by omega
      rw [this]
      nlinarith

/-- The clamped point is a closest point of the closed rectangle: its
squared distance to the circle's centre is at most that of any point of
the rectangle. -/
lemma clamp_closest (a : Circle) (b : SDLRect) (px py : Int)
    (h1 : b.x ≤ px) (h2 : px ≤ b.x + b.w) (h3 : b.y ≤ py) (h4 : py ≤ b.y + b.h) :
    distanceSquared a.x a.y (clampTo a.x b.x (b.x + b.w)) (clampTo a.y b.y (b.y + b.h))
      ≤ distanceSquared a.x a.y px py := by
  have hx := clamp_sq_le a.x b.x (b.x + b.w) px h1 h2
  have hy := clamp_sq_le a.y b.y (b.y + b.h) py h3 h4
  simp only [distanceSquared]
  nlinarith [hx, hy]

/-- C8: for integer circle centres and non-negative radii (no overflow,
which the `Int` model renders exact), `check_collision_circ` reports a
collision exactly when the Euclidean distance between the centres is
strictly less than the sum of the radii. -/
theorem claim_C8_circ_collision_iff_distance (a b : Circle)
    (ha : 0 ≤ a.r) (hb : 0 ≤ b.r) :
    check_collision_circ a b ≠ 0 ↔
      Real.sqrt (((b.x - a.x : Int) : ℝ) ^ 2 + ((b.y - a.y : Int) : ℝ) ^ 2)
        < ((a.r : ℝ) + (b.r : ℝ)) := by
  have key : check_collision_circ a b ≠ 0 ↔
      (b.x - a.x) * (b.x - a.x) + (b.y - a.y) * (b.y - a.y)
        < (a.r + b.r) * (a.r + b.r) := by
    unfold check_collision_circ distanceSquared
    by_cases h : (b.x - a.x) * (b.x - a.x) + (b.y - a.y) * (b.y - a.y)
        < (a.r + b.r) * (a.r + b.r)
    · simp [h]
    · simp [h]
  rw [key]
  rcases eq_or_lt_of_le (add_nonneg ha hb) with h0 | h0
  · constructor
    · intro h
      exfalso
      rw [← h0] at h
      nlinarith [sq_nonneg (b.x - a.x), sq_nonneg (b.y - a.y)]
    · intro h
      exfalso
      have h1 := Real.sqrt_nonneg
        (((b.x - a.x : Int) : ℝ) ^ 2 + ((b.y - a.y : Int) : ℝ) ^ 2)
      have h2 : (a.r : ℝ) + (b.r : ℝ) = 0 := by exact_mod_cast h0.symm
      rw [h2] at h
      linarith
  · have hpos : (0 : ℝ) < (a.r : ℝ) + (b.r : ℝ) := by exact_mod_cast h0
    rw [Real.sqrt_lt' hpos]
    have hcast : ((b.x - a.x : Int) : ℝ) ^ 2 + ((b.y - a.y : Int) : ℝ) ^ 2
        = (((b.x - a.x) * (b.x - a.x) + (b.y - a.y) * (b.y - a.y) : Int) : ℝ) := by
      push_cast
      ring
    have hcast2 : ((a.r : ℝ) + (b.r : ℝ)) ^ 2
        = (((a.r + b.r) * (a.r + b.r) : Int) : ℝ) := by
      push_cast
      ring
    rw [hcast, hcast2]
    exact (Int.cast_lt).symm

/-- Concrete circles exercising `claim_C8_circ_collision_iff_distance`. -/
def circA : Circle := ⟨0, 0, 2⟩

def circB : Circle := ⟨3, 0, 2⟩

/-- Witness for C8 at concrete circles of radius 2 whose centres are 3
apart. -/
theorem claim_C8_witness :
    (0 : Int) ≤ circA.r ∧ (0 : Int) ≤ circB.r ∧
      (check_collision_circ circA circB ≠ 0 ↔
        Real.sqrt (((circB.x - circA.x : Int) : ℝ) ^ 2
            + ((circB.y - circA.y : Int) : ℝ) ^ 2)
          < ((circA.r : ℝ) + (circB.r : ℝ))) :=
  ⟨by decide, by decide,
    claim_C8_circ_collision_iff_distance circA circB (by decide) (by decide)⟩

/-- C9: for a rectangle of non-negative width and height,
`check_collision_rect` reports a collision exactly when the squared
distance from the circle's centre to the componentwise clamp of the
centre onto the rectangle (its closest point, by `clamp_closest`) is
strictly less than the radius squared. -/
theorem claim_C9_rect_collision_iff_clamp_distance (a : Circle) (b : SDLRect)
    (hw : 0 ≤ b.w) (hh : 0 ≤ b.h) :
    check_collision_rect a b ≠ 0 ↔
      distanceSquared a.x a.y (clampTo a.x b.x (b.x + b.w))
        (clampTo a.y b.y (b.y + b.h)) < a.r * a.r := by
  rw [check_collision_rect_clamp a b hw hh]
  by_cases h : distanceSquared a.x a.y (clampTo a.x b.x (b.x + b.w))
      (clampTo a.y b.y (b.y + b.h)) < a.r * a.r
  · simp [h]
  · simp [h]

/-- Concrete circle and rectangle exercising C9. -/
def circC9 : Circle := ⟨5, 5, 3⟩

def rectC9 : SDLRect := ⟨0, 0, 4, 4⟩

/-- Witness for C9 at a circle outside the rectangle's corner. -/
theorem claim_C9_witness :
    (0 : Int) ≤ rectC9.w ∧ (0 : Int) ≤ rectC9.h ∧
      (check_collision_rect circC9 rectC9 ≠ 0 ↔
        distanceSquared circC9.x circC9.y
          (clampTo circC9.x rectC9.x (rectC9.x + rectC9.w))
          (clampTo circC9.y rectC9.y (rectC9.y + rectC9.h))
          < circC9.r * circC9.r) :=
  ⟨by decide, by decide,
    claim_C9_rect_collision_iff_clamp_distance circC9 rectC9 (by decide) (by decide)⟩

/-! ## LTimer (20_force_feedback.c)

The timer queries `SDL_GetTicks()`; here each operation takes the
current tick count `now` as an explicit argument.  Tick counts are
`Uint32`, modelled as `Nat` below 2^32, and the `Uint32` subtractions of
the C code are modelled by the wrap-around subtraction `sub32`. -/

/-- `Uint32` subtraction `a - b` with wrap-around. -/
def sub32 (a b : Nat) : Nat := (a + 2 ^ 32 - b) % 2 ^ 32

/-- `LTimer` from 20_force_feedback.c. -/
structure LTimer where
  mStartTicks : Nat
  mPausedTicks : Nat
  mPaused : Bool
  mStarted : Bool
deriving DecidableEq

/-- `LTimer_init`. -/
def LTimer_init : LTimer := ⟨0, 0, false, false⟩

/-- `LTimer_start`, with the tick count at the moment of the call. -/
def LTimer_start (now : Nat) (_lt : LTimer) : LTimer :=
  ⟨now, 0, false, true⟩

/-- `LTimer_stop`. -/
def LTimer_stop (_lt : LTimer) : LTimer := ⟨0, 0, false, false⟩

/-- `LTimer_pause`, with the tick count at the moment of the call. -/
def LTimer_pause (now : Nat) (lt : LTimer) : LTimer :=
  if lt.mStarted && !lt.mPaused then
    ⟨0, sub32 now lt.mStartTicks, true, lt.mStarted⟩
  else lt

/-- `LTimer_unpause`, with the tick count at the moment of the call. -/
def LTimer_unpause (now : Nat) (lt : LTimer) : LTimer :=
  if lt.mStarted && lt.mPaused then
    ⟨sub32 now lt.mPausedTicks, 0, false, lt.mStarted⟩
  else lt

/-- `LTimer_getTicks`, with the tick count at the moment of the call. -/
def LTimer_getTicks (now : Nat) (lt : LTimer) : Nat :=
  if lt.mStarted then
    if lt.mPaused then lt.mPausedTicks
    else sub32 now lt.mStartTicks
  else 0

lemma sub32_eq_sub (a b : Nat) (hba : b ≤ a) (hlt : a - b < 2 ^ 32) :
    sub32 a b = a - b := by
  unfold sub32
  omega

/-- C5: pausing at tick `t_p` and unpausing at tick `t_u` excludes the
paused interval from `LTimer_getTicks`: afterwards, at any tick
`t ≥ t_u`, the reading is `(t_p - s0) + (t - t_u)`; while paused the
reading is the value at the moment of pausing; when stopped it is 0. -/
theorem claim_C5_ltimer_pause_unpause (s : LTimer) (s0 tp tu t t' : Nat)
    (h1 : s0 ≤ tp) (h2 : tp ≤ tu) (h3 : tu ≤ t) (h4 : t < 2 ^ 32) :
    LTimer_getTicks t
        (LTimer_unpause tu (LTimer_pause tp (LTimer_start s0 s)))
      = (tp - s0) + (t - tu)
    ∧ LTimer_getTicks t' (LTimer_pause tp (LTimer_start s0 s))
      = LTimer_getTicks tp (LTimer_start s0 s)
    ∧ LTimer_getTicks t' (LTimer_stop s) = 0 := by
  have hp : LTimer_pause tp (LTimer_start s0 s)
      = ⟨0, sub32 tp s0, true, true⟩ := by
    simp [LTimer_pause, LTimer_start]
  have hs : sub32 tp s0 = tp - s0 := sub32_eq_sub tp s0 h1 (by omega)
  refine ⟨?_, ?_, ?_⟩
  · have hu : LTimer_unpause tu (LTimer_pause tp (LTimer_start s0 s))
        = ⟨sub32 tu (tp - s0), 0, false, true⟩ := by
      rw [hp]
      simp [LTimer_unpause, hs]
    rw [hu]
    have hs2 : sub32 tu (tp - s0) = tu - (tp - s0) :=
      sub32_eq_sub tu (tp - s0) (by omega) (by omega)
    simp [LTimer_getTicks, hs2]
    rw [sub32_eq_sub t (tu - (tp - s0)) (by omega) (by omega)]
    omega
  · rw [hp]
    simp [LTimer_getTicks, LTimer_start]
  · simp [LTimer_getTicks, LTimer_stop]

/-- Witness for C5 with the tick values used in the source comment:
start at 5000, pause at 10000, unpause at 20000, query at 20500. -/
theorem claim_C5_witness :
    (5000 ≤ 10000 ∧ 10000 ≤ 20000 ∧ 20000 ≤ 20500 ∧ 20500 < 2 ^ 32)
    ∧ (LTimer_getTicks 20500
          (LTimer_unpause 20000 (LTimer_pause 10000 (LTimer_start 5000 LTimer_init)))
        = (10000 - 5000) + (20500 - 20000)
      ∧ LTimer_getTicks 777 (LTimer_pause 10000 (LTimer_start 5000 LTimer_init))
        = LTimer_getTicks 10000 (LTimer_start 5000 LTimer_init)
      ∧ LTimer_getTicks 777 (LTimer_stop LTimer_init) = 0) :=
  ⟨⟨by decide, by decide, by decide, by norm_num⟩,
    claim_C5_ltimer_pause_unpause LTimer_init 5000 10000 20000 20500 777
      (by decide) (by decide) (by decide) (by norm_num)⟩

/-! ## 49_mutexes_and_conditions (C++ and C versions)

The producer/consumer demo: the threads `producer` and `consumer` each
run a five-iteration loop around `produce`/`consume`, which guard the
single shared integer `gData` with the mutex `gBufferLock` and the
conditions `gCanProduce`/`gCanConsume`.  Both the C++ file and the C
version have the same bodies; one embedding covers both. -/

/-- The observable operations of a worker thread body. -/
inductive ThreadOp where
  | delay
  | produce
  | consume
deriving DecidableEq

/-- The body of the producer's `for(i = 0; i < 5; ++i)` loop, by the
number of iterations left: each iteration is `SDL_Delay` then
`produce()`. -/
def producerLoop : Nat → List ThreadOp
  | 0 => []
  | n + 1 => ThreadOp.delay :: ThreadOp.produce :: producerLoop n

/-- The body of the consumer's `for(i = 0; i < 5; ++i)` loop. -/
def consumerLoop : Nat → List ThreadOp
  | 0 => []
  | n + 1 => ThreadOp.delay :: ThreadOp.consume :: consumerLoop n

/-- The operations performed by the `producer` thread function: its loop
runs five times and then the function returns. -/
def producerBody : List ThreadOp := producerLoop 5

/-- The operations performed by the `consumer` thread function. -/
def consumerBody : List ThreadOp := consumerLoop 5

/-- C6: the producer thread performs exactly five `produce` operations
and no `consume`, the consumer exactly five `consume` operations and no
`produce`, and both bodies are finite lists, i.e. the threads
terminate. -/
theorem claim_C6_five_iterations :
    producerBody.count ThreadOp.produce = 5
    ∧ producerBody.count ThreadOp.consume = 0
    ∧ consumerBody.count ThreadOp.consume = 5
    ∧ consumerBody.count ThreadOp.produce = 0 := by
  decide

/-- The atomic actions inside `produce()`/`consume()` relevant to the
locking discipline.  `wait` is `SDL_CondWait`, which releases the mutex
while blocked and has reacquired it when it returns; `readData` and
`writeData` are the accesses to the shared integer `gData`. -/
inductive MutexAct where
  | lock
  | unlock
  | wait
  | readData
  | writeData
  | signal
deriving DecidableEq

/-- Action trace of `produce()` given the value `d` of `gData` read
under the lock: lock; test `gData != -1` (a read), waiting on
`gCanProduce` when the buffer is full; write `gData`; print it (a
read); unlock; signal `gCanConsume`. -/
def produceTrace (d : Int) : List MutexAct :=
  [MutexAct.lock, MutexAct.readData]
    ++ (if d ≠ -1 then [MutexAct.wait] else [])
    ++ [MutexAct.writeData, MutexAct.readData, MutexAct.unlock, MutexAct.signal]

/-- Action trace of `consume()` given the value `d` of `gData` read
under the lock: lock; test `gData == -1` (a read), waiting on
`gCanConsume` when the buffer is empty; print `gData` (a read); write
`gData = -1`; unlock; signal `gCanProduce`. -/
def consumeTrace (d : Int) : List MutexAct :=
  [MutexAct.lock, MutexAct.readData]
    ++ (if d = -1 then [MutexAct.wait] else [])
    ++ [MutexAct.readData, MutexAct.writeData, MutexAct.unlock, MutexAct.signal]

/-- Checks that every `readData`/`writeData` in the trace happens while
the thread holds the mutex.  The boolean state tracks whether the mutex
is held; `wait` requires it held on entry and holds it again on
return. -/
def accessesLocked : Bool → List MutexAct → Bool
  | _, [] => true
  | _, MutexAct.lock :: rest => accessesLocked true rest
  | _, MutexAct.unlock :: rest => accessesLocked false rest
  | held, MutexAct.wait :: rest => accessesLocked held rest
  | held, MutexAct.readData :: rest => held && accessesLocked held rest
  | held, MutexAct.writeData :: rest => held && accessesLocked held rest
  | held, MutexAct.signal :: rest => accessesLocked held rest

/-- C7: in both `produce()` and `consume()`, whatever value the shared
buffer holds, every read and write of `gData` occurs while the thread
holds `gBufferLock` (a thread entering without the lock included). -/
theorem claim_C7_data_accesses_under_mutex (d e : Int) :
    accessesLocked false (produceTrace d) = true
    ∧ accessesLocked false (consumeTrace e) = true := by
  constructor
  · unfold produceTrace
    by_cases h : d ≠ -1
    · simp only [if_pos h]
      rfl
    · simp only [if_neg h]
      rfl
  · unfold consumeTrace
    by_cases h : e = -1
    · simp only [if_pos h]
      rfl
    · simp only [if_neg h]
      rfl

/-- Witness for C7 at concrete buffer values (full buffer for the
producer, empty for the consumer, so both `SDL_CondWait` branches are
taken). -/
theorem claim_C7_witness :
    accessesLocked false (produceTrace 3) = true
    ∧ accessesLocked false (consumeTrace (-1)) = true :=
  claim_C7_data_accesses_under_mutex 3 (-1)

/-! ## 33_file_reading_and_writing.c

`loadMedia` opens "nums.bin" with `SDL_RWFromFile("nums.bin", "r+b")`.
On failure it retries with `"w+b"`; if that also fails it returns -1,
otherwise it zeroes all `TOTAL_DATA = 10` entries of the global
`Sint32 gData[TOTAL_DATA]` and writes each to the file.  On success it
issues ten `SDL_RWread` calls of one `Sint32` each into `gData`.

The embedding models the two opens by an optional file content (the
list of `Sint32` values the reads would deliver in order) and a flag
for the `"w+b"` open; `gData`'s prior contents are the explicit list
`gData0`.  An `SDL_RWread` past the end of the file leaves the
destination untouched (the C code does not check the read's result). -/

/-- Result of the file-handling part of `loadMedia`: the contents of
`gData` afterwards and the values written to the file (in order). -/
structure FileOutcome where
  gData : List Int
  written : List Int
deriving DecidableEq

/-- The `file == NULL` branch: `for(i = 0; i < 10; ++i) { gData[i] = 0;
SDL_RWwrite(file, &gData[i], ...); }`. -/
def writeFreshLoop (gData0 : List Int) : FileOutcome :=
  (List.range 10).foldl
    (fun acc i => ⟨acc.gData.set i 0, acc.written ++ [0]⟩)
    ⟨gData0, []⟩

/-- The `else` branch: `for(i = 0; i < 10; ++i) SDL_RWread(file,
&gData[i], sizeof(Sint32), 1);`. -/
def readLoop (gData0 content : List Int) : List Int :=
  (List.range 10).foldl
    (fun g i =>
      match content.get? i with
      | some v => g.set i v
      | none => g)
    gData0

/-- The file-handling section of `loadMedia`: `readFile` is the result
of the `"r+b"` open (`none` = failed, `some content` = opened, reads
delivering `content` in order), `writeOk` whether the `"w+b"` open
succeeds.  `none` is the `return -1` path. -/
def loadMediaFileSection (gData0 : List Int) (readFile : Option (List Int))
    (writeOk : Bool) : Option FileOutcome :=
  match readFile with
  | none =>
      if writeOk then some (writeFreshLoop gData0)
      else none
  | some content => some ⟨readLoop gData0 content, []⟩

lemma writeFreshLoop_set (gData0 : List Int) (h : gData0.length = 10) :
    writeFreshLoop gData0 = ⟨List.replicate 10 0, List.replicate 10 0⟩ := by
  have : ∃ a b c d e f g h i j, gData0 = [a, b, c, d, e, f, g, h, i, j] := by
    match gData0, h with
    | [a, b, c, d, e, f, g, h', i, j], _ =>
        exact ⟨a, b, c, d, e, f, g, h', i, j, rfl⟩
  obtain ⟨a, b, c, d, e, f, g, h', i, j, rfl⟩ := this
  rfl

lemma readLoop_take (gData0 content : List Int) (h : gData0.length = 10)
    (hc : 10 ≤ content.length) :
    readLoop gData0 content = content.take 10 := by
  have hg : ∃ a b c d e f g h i j, gData0 = [a, b, c, d, e, f, g, h, i, j] := by
    match gData0, h with
    | [a, b, c, d, e, f, g, h', i, j], _ =>
        exact ⟨a, b, c, d, e, f, g, h', i, j, rfl⟩
  obtain ⟨a, b, c, d, e, f, g, h', i, j, rfl⟩ := hg
  have hce : ∃ v0 v1 v2 v3 v4 v5 v6 v7 v8 v9 rest,
      content = v0 :: v1 :: v2 :: v3 :: v4 :: v5 :: v6 :: v7 :: v8 :: v9 :: rest := by
    match content, hc with
    | v0 :: v1 :: v2 :: v3 :: v4 :: v5 :: v6 :: v7 :: v8 :: v9 :: rest, _ =>
        exact ⟨v0, v1, v2, v3, v4, v5, v6, v7, v8, v9, rest, rfl⟩
  obtain ⟨v0, v1, v2, v3, v4, v5, v6, v7, v8, v9, rest, rfl⟩ := hce
  rfl

/-- C2: with `gData` a ten-element array, if the `"r+b"` open fails and
the `"w+b"` open succeeds, `loadMedia`'s file section succeeds with
every element of `gData` set to 0 and those ten zeroes written to the
file; if the `"r+b"` open succeeds on a file holding at least ten
values, it succeeds with `gData` holding exactly the file's first ten
values (ten reads, nothing written). -/
theorem claim_C2_loadMedia_file_handling (gData0 content : List Int)
    (h : gData0.length = 10) (hc : 10 ≤ content.length) :
    loadMediaFileSection gData0 none true
      = some ⟨List.replicate 10 0, List.replicate 10 0⟩
    ∧ loadMediaFileSection gData0 (some content) false
      = some ⟨content.take 10, []⟩
    ∧ loadMediaFileSection gData0 (some content) true
      = some ⟨content.take 10, []⟩ := by
  refine ⟨?_, ?_, ?_⟩
  · simp [loadMediaFileSection, writeFreshLoop_set gData0 h]
  · simp [loadMediaFileSection, readLoop_take gData0 content h hc]
  · simp [loadMediaFileSection, readLoop_take gData0 content h hc]

/-- Witness for C2 with stale `gData` contents and an eleven-value
file. -/
theorem claim_C2_witness :
    (List.replicate 10 (7 : Int)).length = 10
    ∧ 10 ≤ ([5, 4, 3, 2, 1, 0, -1, -2, -3, -4, 99] : List Int).length
    ∧ (loadMediaFileSection (List.replicate 10 (7 : Int)) none true
        = some ⟨List.replicate 10 0, List.replicate 10 0⟩
      ∧ loadMediaFileSection (List.replicate 10 (7 : Int))
          (some [5, 4, 3, 2, 1, 0, -1, -2, -3, -4, 99]) false
        = some ⟨([5, 4, 3, 2, 1, 0, -1, -2, -3, -4, 99] : List Int).take 10, []⟩
      ∧ loadMediaFileSection (List.replicate 10 (7 : Int))
          (some [5, 4, 3, 2, 1, 0, -1, -2, -3, -4, 99]) true
        = some ⟨([5, 4, 3, 2, 1, 0, -1, -2, -3, -4, 99] : List Int).take 10, []⟩) :=
  ⟨by decide, by decide,
    claim_C2_loadMedia_file_handling (List.replicate 10 (7 : Int))
      [5, 4, 3, 2, 1, 0, -1, -2, -3, -4, 99] (by decide) (by decide)⟩

/-! ## main control flow (33_file_reading_and_writing.c,
46_multithreading.c, 49_mutexes_and_conditions.cpp)

Each `main` is modelled on the three scenarios the claims speak about:
`init()` fails, `loadMedia()` fails, or both succeed and the event loop
runs until an `SDL_QUIT` event.  The model records the value `main`
returns, whether the teardown routine (`close_all`) ran before the
return, and how many log calls `main` itself makes on the way out (logs
made inside `init`/`loadMedia` at the failing library call are not
counted here). -/

/-- The scenario a run of `main` faces. -/
inductive MainScenario where
  | initFail
  | loadFail
  | quitEvent
deriving DecidableEq

/-- What a run of `main` does on its way out. -/
structure MainExit where
  code : Int
  cleanupRan : Bool
  mainLogs : Nat
deriving DecidableEq

/-- The single exit path of `main` in 33_file_reading_and_writing.c:
every path jumps to the `equit:` label, running `close_all()` and
returning 0. -/
def equit33 : MainExit := ⟨0, true, 0⟩

/-- `main` of 33_file_reading_and_writing.c: `if(init()) goto equit;
if(loadMedia()) goto equit;` and the event loop jumps to `equit` on
`SDL_QUIT`. -/
def main33 : MainScenario → MainExit
  | MainScenario.initFail => equit33
  | MainScenario.loadFail => equit33
  | MainScenario.quitEvent => equit33

/-- `main` of 46_multithreading.c: `if(init()) return 1;
if(loadMedia()) return 1;`, and the event loop jumps to `equit:`
(`close_all(); return 0;`) on `SDL_QUIT`. -/
def main46 : MainScenario → MainExit
  | MainScenario.initFail => ⟨1, false, 0⟩
  | MainScenario.loadFail => ⟨1, false, 0⟩
  | MainScenario.quitEvent => ⟨0, true, 0⟩

/-- `main` of 49_mutexes_and_conditions.cpp: `if(init()) {
printf("Failed to initialize!\n"); return -1; }`, likewise for
`loadMedia()`, and the event loop jumps to `equit:` (`close_all();
return 0;`) on `SDL_QUIT`. -/
def main49 : MainScenario → MainExit
  | MainScenario.initFail => ⟨-1, false, 1⟩
  | MainScenario.loadFail => ⟨-1, false, 1⟩
  | MainScenario.quitEvent => ⟨0, true, 0⟩

/-- Counterexample to C3: in 46_multithreading.c an `init()` failure
makes `main` return 1 immediately; no jump to the cleanup label, no
teardown.  (49_mutexes_and_conditions.cpp likewise returns directly,
after a second log call of its own.) -/
theorem claim_C3_counterexample :
    (main46 MainScenario.initFail).cleanupRan = false
    ∧ (main49 MainScenario.initFail).cleanupRan = false
    ∧ (main49 MainScenario.initFail).mainLogs = 1 := by
  decide

/-- C3 (amended): the quit path of each modelled `main` reaches the
single `equit:` cleanup label (teardown runs, exit code 0); on
`init`/`loadMedia` failure the file I/O demo's `main` also jumps to
that label (teardown runs, code 0), while the two threading demos'
`main`s return a sentinel directly without teardown — 1 in
46_multithreading.c with no extra log, -1 in
49_mutexes_and_conditions.cpp after one extra summary log call. -/
theorem claim_C3_error_paths :
    (∀ s, main33 s = ⟨0, true, 0⟩)
    ∧ main46 MainScenario.quitEvent = ⟨0, true, 0⟩
    ∧ main49 MainScenario.quitEvent = ⟨0, true, 0⟩
    ∧ main46 MainScenario.initFail = ⟨1, false, 0⟩
    ∧ main46 MainScenario.loadFail = ⟨1, false, 0⟩
    ∧ main49 MainScenario.initFail = ⟨-1, false, 1⟩
    ∧ main49 MainScenario.loadFail = ⟨-1, false, 1⟩ := by
  refine ⟨?_, by decide, by decide, by decide, by decide, by decide, by decide⟩
  intro s
  cases s <;> rfl

/-- Counterexample to C4: on `init()` failure, `main` of
46_multithreading.c exits with code 1, which is not negative, and
`main` of 33_file_reading_and_writing.c exits with code 0. -/
theorem claim_C4_counterexample :
    (main46 MainScenario.initFail).code = 1
    ∧ ¬ (main46 MainScenario.initFail).code < 0
    ∧ (main33 MainScenario.initFail).code = 0 := by
  decide

/-- C4 (amended): each modelled `main` exits with code 0 on a graceful
quit; on `init`/`loadMedia` failure the exit code is an ad hoc nonzero
sentinel in the threading demos (1 in 46_multithreading.c, -1 in
49_mutexes_and_conditions.cpp), while the file I/O demo funnels
failures to the shared cleanup label and exits with 0. -/
theorem claim_C4_exit_codes :
    ((main33 MainScenario.quitEvent).code = 0
      ∧ (main46 MainScenario.quitEvent).code = 0
      ∧ (main49 MainScenario.quitEvent).code = 0)
    ∧ ((main46 MainScenario.initFail).code = 1
      ∧ (main46 MainScenario.loadFail).code = 1
      ∧ (main49 MainScenario.initFail).code = -1
      ∧ (main49 MainScenario.loadFail).code = -1
      ∧ (main33 MainScenario.initFail).code = 0
      ∧ (main33 MainScenario.loadFail).code = 0) := by
  decide

/-! ## 41_bitmap_fonts.c: LBitmapFont_buildFont

The builder treats the locked texture as a 16x16 grid of cells of size
`(width/16) x (height/16)`, takes the pixel at (0, 0) as the background
colour, and computes one clip rectangle per cell.  The embedding covers
the successful-lock path (on lock failure the C function returns -1
before touching any rectangle).  A bitmap is its dimensions together
with `LTexture_getPixel32` as a function. -/

/-- A locked texture: dimensions and `LTexture_getPixel32`. -/
structure Bitmap where
  w : Nat
  h : Nat
  pix : Nat → Nat → Nat

/-- An `SDL_Rect` slot of `mChars`.  All four fields stay non-negative
throughout `LBitmapFont_buildFont` (the two subtractions it performs
are `rightmost - leftmost` with `leftmost ≤ rightmost` and
`cellH - top` with `top ≤ cellH`), so `Nat` is faithful. -/
structure GlyphRect where
  x : Nat
  y : Nat
  w : Nat
  h : Nat
deriving DecidableEq

/-- An ascending `for` loop that stops at the first index satisfying
`p`: `firstHitFrom p start fuel` scans `start, start+1, ...` for `fuel`
steps. -/
def firstHitFrom (p : Nat → Bool) (start : Nat) : Nat → Option Nat
  | 0 => none
  | fuel + 1 => if p start then some start else firstHitFrom p (start + 1) fuel

/-- First index in `[0, n)` satisfying `p`, if any — the C pattern
`for(i = 0; i < n; ++i) if(p(i)) break;`. -/
def firstHit (p : Nat → Bool) (n : Nat) : Option Nat := firstHitFrom p 0 n

/-- Last index in `[0, n)` satisfying `p`, if any — the C pattern
`for(i = n - 1; i >= 0; --i) if(p(i)) break;`. -/
def lastHit (p : Nat → Bool) : Nat → Option Nat
  | 0 => none
  | n + 1 => if p n then some n else lastHit p n

/-- The inner row scan of the left/right edge searches: does column
`pCol` of cell `(rows, cols)` hold a pixel differing from the
background colour `pix 0 0`? -/
def colHasGlyph (b : Bitmap) (rows cols pCol : Nat) : Bool :=
  (List.range (b.h / 16)).any fun pRow =>
    b.pix ((b.w / 16) * cols + pCol) ((b.h / 16) * rows + pRow) != b.pix 0 0

/-- The inner column scan of the top/bottom searches: does row `pRow`
of cell `(rows, cols)` hold a non-background pixel? -/
def rowHasGlyph (b : Bitmap) (rows cols pRow : Nat) : Bool :=
  (List.range (b.w / 16)).any fun pCol =>
    b.pix ((b.w / 16) * cols + pCol) ((b.h / 16) * rows + pRow) != b.pix 0 0

/-- The rectangle for cell `(rows, cols)` as the per-cell loops of
`LBitmapFont_buildFont` leave it: initialised to the full cell, then
`x` moved to the first column holding a non-background pixel and `w`
set from the last such column. -/
def cellRect (b : Bitmap) (rows cols : Nat) : GlyphRect :=
  let cellW := b.w / 16
  let cellH := b.h / 16
  let x := match firstHit (colHasGlyph b rows cols) cellW with
    | some pCol => cellW * cols + pCol
    | none => cellW * cols
  let w := match lastHit (colHasGlyph b rows cols) cellW with
    | some pCol => (cellW * cols + pCol) - x + 1
    | none => cellW
  ⟨x, cellH * rows, w, cellH⟩

/-- The running `top` after all 256 cells: starts at `cellH` and is
lowered to the first non-background row of each cell when that row is
smaller. -/
def topOffset (b : Bitmap) : Nat :=
  (List.range 16).foldl
    (fun t rows =>
      (List.range 16).foldl
        (fun t cols =>
          match firstHit (rowHasGlyph b rows cols) (b.h / 16) with
          | some pRow => if pRow < t then pRow else t
          | none => t)
        t)
    (b.h / 16)

/-- `baseA`: the bottom-most non-background row of the cell of `'A'`
(`currentChar == 65`, i.e. cell row 4, column 1), defaulting to
`cellH`. -/
def baseA (b : Bitmap) : Nat :=
  match lastHit (rowHasGlyph b 4 1) (b.h / 16) with
  | some pRow => pRow
  | none => b.h / 16

/-- The rectangle stored in `mChars[idx]` after the final trim loop
`for(i = 0; i < 256; ++i) { mChars[i].y += top; mChars[i].h -= top; }`. -/
def trimmedChar (b : Bitmap) (idx : Nat) : GlyphRect :=
  let r := cellRect b (idx / 16) (idx % 16)
  ⟨r.x, r.y + topOffset b, r.w, r.h - topOffset b⟩

/-- The result of `LBitmapFont_buildFont`: `mChars` (indexed by
`currentChar = rows * 16 + cols`, meaningful for indices below 256),
`mSpace` and `mNewLine`. -/
structure FontData where
  chars : Nat → GlyphRect
  mSpace : Nat
  mNewLine : Nat

/-- `LBitmapFont_buildFont` on a successfully locked texture.
`mNewLine = baseA - top` never wraps: `top` is at most the first
non-background row of the `'A'` cell, itself at most `baseA`. -/
def LBitmapFont_buildFont (b : Bitmap) : FontData :=
  { chars := trimmedChar b
    mSpace := (b.w / 16) / 2
    mNewLine := baseA b - topOffset b }

/-- Column `pCol` of cell `(rows, cols)` holds a non-background pixel
(the `Prop` counterpart of `colHasGlyph`). -/
def cellColHasNonBg (b : Bitmap) (rows cols pCol : Nat) : Prop :=
  ∃ pRow < b.h / 16,
    b.pix ((b.w / 16) * cols + pCol) ((b.h / 16) * rows + pRow) ≠ b.pix 0 0

lemma colHasGlyph_iff (b : Bitmap) (rows cols pCol : Nat) :
    colHasGlyph b rows cols pCol = true ↔ cellColHasNonBg b rows cols pCol := by
  unfold colHasGlyph cellColHasNonBg
  rw [List.any_eq_true]
  constructor
  · rintro ⟨pRow, hmem, hne⟩
    exact ⟨pRow, List.mem_range.mp hmem, by simpa using hne⟩
  · rintro ⟨pRow, hlt, hne⟩
    exact ⟨pRow, List.mem_range.mpr hlt, by simpa using hne⟩

lemma firstHitFrom_some_spec (p : Nat → Bool) :
    ∀ fuel start k, firstHitFrom p start fuel = some k →
      start ≤ k ∧ k < start + fuel ∧ p k = true
        ∧ ∀ j, start ≤ j → j < k → p j = false := by
  intro fuel
  induction fuel with
  | zero =>
      intro start k h
      simp [firstHitFrom] at h
  | succ n ih =>
      intro start k h
      by_cases hp : p start = true
      · rw [firstHitFrom, if_pos hp] at h
        injection h with hk
        subst hk
        exact ⟨Nat.le_refl _, by omega, hp, fun j hj1 hj2 => by omega⟩
      · have hp' : p start = false := by
          revert hp
          cases p start <;> simp
        rw [firstHitFrom, if_neg hp] at h
        obtain ⟨h1, h2, h3, h4⟩ := ih (start + 1) k h
        refine ⟨by omega, by omega, h3, ?_⟩
        intro j hj1 hj2
        rcases Nat.eq_or_lt_of_le hj1 with rfl | hj1'
        · exact hp'
        · exact h4 j (by omega) hj2

lemma firstHitFrom_none_spec (p : Nat → Bool) :
    ∀ fuel start, firstHitFrom p start fuel = none →
      ∀ j, start ≤ j → j < start + fuel → p j = false := by
  intro fuel
  induction fuel with
  | zero =>
      intro start _ j hj1 hj2
      omega
  | succ n ih =>
      intro start h j hj1 hj2
      by_cases hp : p start = true
      · rw [firstHitFrom, if_pos hp] at h
        exact absurd h (by simp)
      · have hp' : p start = false := by
          revert hp
          cases p start <;> simp
        rw [firstHitFrom, if_neg hp] at h
        rcases Nat.eq_or_lt_of_le hj1 with rfl | hj1'
        · exact hp'
        · exact ih (start + 1) h j (by omega) (by omega)

lemma firstHit_some_spec (p : Nat → Bool) (n k : Nat)
    (h : firstHit p n = some k) :
    k < n ∧ p k = true ∧ ∀ j, j < k → p j = false := by
  obtain ⟨_, h2, h3, h4⟩ := firstHitFrom_some_spec p n 0 k h
  exact ⟨by omega, h3, fun j hj => h4 j (Nat.zero_le _) hj⟩

lemma firstHit_none_spec (p : Nat → Bool) (n : Nat)
    (h : firstHit p n = none) : ∀ j, j < n → p j = false :=
  fun j hj => firstHitFrom_none_spec p n 0 h j (Nat.zero_le _) (by omega)

lemma lastHit_some_spec (p : Nat → Bool) :
    ∀ n k, lastHit p n = some k →
      k < n ∧ p k = true ∧ ∀ j, k < j → j < n → p j = false := by
  intro n
  induction n with
  | zero =>
      intro k h
      simp [lastHit] at h
  | succ m ih =>
      intro k h
      by_cases hp : p m = true
      · rw [lastHit, if_pos hp] at h
        injection h with hk
        subst hk
        exact ⟨by omega, hp, fun j hj1 hj2 => by omega⟩
      · have hp' : p m = false := by
          revert hp
          cases p m <;> simp
        rw [lastHit, if_neg hp] at h
        obtain ⟨h1, h2, h3⟩ := ih k h
        refine ⟨by omega, h2, ?_⟩
        intro j hj1 hj2
        rcases Nat.lt_succ_iff_lt_or_eq.mp hj2 with hj2' | rfl
        · exact h3 j hj1 hj2'
        · exact hp'

lemma lastHit_none_spec (p : Nat → Bool) :
    ∀ n, lastHit p n = none → ∀ j, j < n → p j = false := by
  intro n
  induction n with
  | zero =>
      intro _ j hj
      omega
  | succ m ih =>
      intro h j hj
      by_cases hp : p m = true
      · rw [lastHit, if_pos hp] at h
        exact absurd h (by simp)
      · have hp' : p m = false := by
          revert hp
          cases p m <;> simp
        rw [lastHit, if_neg hp] at h
        rcases Nat.lt_succ_iff_lt_or_eq.mp hj with hj' | rfl
        · exact ih h j hj'
        · exact hp'

lemma trimmedChar_x (b : Bitmap) (idx : Nat) :
    (trimmedChar b idx).x = (cellRect b (idx / 16) (idx % 16)).x := rfl

lemma trimmedChar_w (b : Bitmap) (idx : Nat) :
    (trimmedChar b idx).w = (cellRect b (idx / 16) (idx % 16)).w := rfl

lemma cellRect_x_of_first_some (b : Bitmap) (rows cols L : Nat)
    (h : firstHit (colHasGlyph b rows cols) (b.w / 16) = some L) :
    (cellRect b rows cols).x = (b.w / 16) * cols + L := by
  simp only [cellRect]
  rw [h]

lemma cellRect_x_of_first_none (b : Bitmap) (rows cols : Nat)
    (h : firstHit (colHasGlyph b rows cols) (b.w / 16) = none) :
    (cellRect b rows cols).x = (b.w / 16) * cols := by
  simp only [cellRect]
  rw [h]

lemma cellRect_w_of_both_some (b : Bitmap) (rows cols L Rt : Nat)
    (h1 : firstHit (colHasGlyph b rows cols) (b.w / 16) = some L)
    (h2 : lastHit (colHasGlyph b rows cols) (b.w / 16) = some Rt) :
    (cellRect b rows cols).w
      = ((b.w / 16) * cols + Rt) - ((b.w / 16) * cols + L) + 1 := by
  simp only [cellRect]
  rw [h1, h2]

lemma cellRect_w_of_last_none (b : Bitmap) (rows cols : Nat)
    (h : lastHit (colHasGlyph b rows cols) (b.w / 16) = none) :
    (cellRect b rows cols).w = b.w / 16 := by
  simp only [cellRect]
  rw [h]

instance (b : Bitmap) (rows cols pCol : Nat) :
    Decidable (cellColHasNonBg b rows cols pCol) :=
  decidable_of_iff _ (colHasGlyph_iff b rows cols pCol)

/-- C1 (amended): for every cell `(r, c)` of the 16x16 grid, the
rectangle `LBitmapFont_buildFont` stores at `mChars[16r + c]` has
horizontal extent exactly the tightest column range covering the cell's
non-background pixels: `x` is the cell-left offset plus the leftmost
column `L` holding a non-background pixel and `w` is `Rt - L + 1` for
`Rt` the rightmost such column; a cell containing only background
pixels keeps the full cell's horizontal extent (`x` at the cell's left
edge, `w` the whole cell width) — though not, in general, the full
cell rectangle, its `y`/`h` being trimmed by the global top offset. -/
theorem claim_C1_glyph_horizontal_extent (b : Bitmap) (r c : Nat)
    (hr : r < 16) (hc : c < 16) :
    ((∃ pCol < b.w / 16, cellColHasNonBg b r c pCol) →
      ∃ L Rt, L < b.w / 16 ∧ Rt < b.w / 16
        ∧ cellColHasNonBg b r c L ∧ cellColHasNonBg b r c Rt
        ∧ (∀ j < b.w / 16, cellColHasNonBg b r c j → L ≤ j ∧ j ≤ Rt)
        ∧ ((LBitmapFont_buildFont b).chars (16 * r + c)).x = (b.w / 16) * c + L
        ∧ ((LBitmapFont_buildFont b).chars (16 * r + c)).w = Rt - L + 1)
    ∧ ((∀ pCol < b.w / 16, ¬ cellColHasNonBg b r c pCol) →
      ((LBitmapFont_buildFont b).chars (16 * r + c)).x = (b.w / 16) * c
        ∧ ((LBitmapFont_buildFont b).chars (16 * r + c)).w = b.w / 16) := by
  have hdiv : (16 * r + c) / 16 = r := by omega
  have hmod : (16 * r + c) % 16 = c := by omega
  have hx : ((LBitmapFont_buildFont b).chars (16 * r + c)).x = (cellRect b r c).x := by
    show (trimmedChar b (16 * r + c)).x = _
    rw [trimmedChar_x, hdiv, hmod]
  have hw : ((LBitmapFont_buildFont b).chars (16 * r + c)).w = (cellRect b r c).w := by
    show (trimmedChar b (16 * r + c)).w = _
    rw [trimmedChar_w, hdiv, hmod]
  constructor
  · rintro ⟨j0, hj0lt, hj0⟩
    have hpj0 : colHasGlyph b r c j0 = true := (colHasGlyph_iff b r c j0).mpr hj0
    rcases hfirst : firstHit (colHasGlyph b r c) (b.w / 16) with _ | L
    · exact absurd (firstHit_none_spec _ _ hfirst j0 hj0lt) (by simp [hpj0])
    rcases hlast : lastHit (colHasGlyph b r c) (b.w / 16) with _ | Rt
    · exact absurd (lastHit_none_spec _ _ hlast j0 hj0lt) (by simp [hpj0])
    obtain ⟨hLlt, hpL, hLmin⟩ := firstHit_some_spec _ _ _ hfirst
    obtain ⟨hRlt, hpR, hRmax⟩ := lastHit_some_spec _ _ _ hlast
    have hLR : L ≤ Rt := by
      by_contra hcon
      exact absurd (hRmax L (by omega) hLlt) (by simp [hpL])
    refine ⟨L, Rt, hLlt, hRlt, (colHasGlyph_iff b r c L).mp hpL,
      (colHasGlyph_iff b r c Rt).mp hpR, ?_, ?_, ?_⟩
    · intro j hjlt hj
      have hpj : colHasGlyph b r c j = true := (colHasGlyph_iff b r c j).mpr hj
      constructor
      · by_contra hcon
        exact absurd (hLmin j (by omega)) (by simp [hpj])
      · by_contra hcon
        exact absurd (hRmax j (by omega) hjlt) (by simp [hpj])
    · rw [hx, cellRect_x_of_first_some b r c L hfirst]
    · rw [hw, cellRect_w_of_both_some b r c L Rt hfirst hlast]
      omega
  · intro hempty
    have hall : ∀ j, j < b.w / 16 → colHasGlyph b r c j = false := by
      intro j hj
      cases hpj : colHasGlyph b r c j
      · rfl
      · exact absurd ((colHasGlyph_iff b r c j).mp hpj) (hempty j hj)
    rcases hfirst : firstHit (colHasGlyph b r c) (b.w / 16) with _ | L
    · rcases hlast : lastHit (colHasGlyph b r c) (b.w / 16) with _ | Rt
      · constructor
        · rw [hx, cellRect_x_of_first_none b r c hfirst]
        · rw [hw, cellRect_w_of_last_none b r c hlast]
      · obtain ⟨hRlt, hpR, _⟩ := lastHit_some_spec _ _ _ hlast
        exact absurd (hall Rt hRlt) (by simp [hpR])
    · obtain ⟨hLlt, hpL, _⟩ := firstHit_some_spec _ _ _ hfirst
      exact absurd (hall L hLlt) (by simp [hpL])

/-- A 16x32 test bitmap (cells are 1x2 pixels): background colour 0,
with a single non-background pixel at (1, 1), i.e. in the bottom row of
cell (0, 1). -/
def testBitmap : Bitmap :=
  ⟨16, 32, fun x y => if x = 1 ∧ y = 1 then 1 else 0⟩

/-- Witness for C1 on `testBitmap` at cell (0, 1), whose single
non-background column is column 0 of the cell. -/
theorem claim_C1_witness :
    (0 : Nat) < 16 ∧ (1 : Nat) < 16
    ∧ (((∃ pCol < testBitmap.w / 16, cellColHasNonBg testBitmap 0 1 pCol) →
        ∃ L Rt, L < testBitmap.w / 16 ∧ Rt < testBitmap.w / 16
          ∧ cellColHasNonBg testBitmap 0 1 L ∧ cellColHasNonBg testBitmap 0 1 Rt
          ∧ (∀ j < testBitmap.w / 16, cellColHasNonBg testBitmap 0 1 j → L ≤ j ∧ j ≤ Rt)
          ∧ ((LBitmapFont_buildFont testBitmap).chars (16 * 0 + 1)).x
            = (testBitmap.w / 16) * 1 + L
          ∧ ((LBitmapFont_buildFont testBitmap).chars (16 * 0 + 1)).w = Rt - L + 1)
      ∧ ((∀ pCol < testBitmap.w / 16, ¬ cellColHasNonBg testBitmap 0 1 pCol) →
        ((LBitmapFont_buildFont testBitmap).chars (16 * 0 + 1)).x
          = (testBitmap.w / 16) * 1
          ∧ ((LBitmapFont_buildFont testBitmap).chars (16 * 0 + 1)).w
            = testBitmap.w / 16)) :=
  ⟨by decide, by decide,
    claim_C1_glyph_horizontal_extent testBitmap 0 1 (by decide) (by decide)⟩

/-- Counterexample to C1 as stated: cell (0, 0) of `testBitmap`
contains only background pixels, yet its final rectangle is not the
full cell `(0, 0, 1, 2)` — the trim loop has moved it to
`y = 1, h = 1` (the global top offset is 1, set by the glyph pixel in
cell (0, 1)). -/
theorem claim_C1_counterexample :
    (∀ pCol < testBitmap.w / 16, ¬ cellColHasNonBg testBitmap 0 0 pCol)
    ∧ ((LBitmapFont_buildFont testBitmap).chars 0).x = 0
    ∧ ((LBitmapFont_buildFont testBitmap).chars 0).w = 1
    ∧ ((LBitmapFont_buildFont testBitmap).chars 0).y = 1
    ∧ ((LBitmapFont_buildFont testBitmap).chars 0).h = 1
    ∧ ¬ (((LBitmapFont_buildFont testBitmap).chars 0).y = 0
        ∧ ((LBitmapFont_buildFont testBitmap).chars 0).h = 2) := by
  decide

end Sdl2Tutorials
